import Mathlib

/-!
Verification of the chatAI backend pipeline (src/backend/app/main.py):
history store, FTS5-backed retrieval store, prompt assembly, the
primary/fallback generation strategy, and the SSE streaming contract.

Machine strings are modelled as Lean `String` (lists of characters);
Python truthiness of a string is emptiness; `str.strip()` is modelled by
`pyStrip` over the same whitespace set Python uses for ASCII text.
-/

deriving instance DecidableEq for Except

namespace ChatAI

/-- Whitespace characters recognised by Python's `str.strip()` /
`str.split()` on the texts this program handles: space, tab, newline,
carriage return, vertical tab, form feed. -/
def isPyWs (c : Char) : Bool :=
  c = ' ' || c = '\t' || c = '\n' || c = '\r' || c = Char.ofNat 11 || c = Char.ofNat 12

/-- `str.strip()` on the character list: drop whitespace from both ends. -/
def stripChars (l : List Char) : List Char :=
  ((l.dropWhile isPyWs).reverse.dropWhile isPyWs).reverse

/-- Python `s.strip()`. -/
def pyStrip (s : String) : String := ⟨stripChars s.data⟩

/-- Whitespace tokenisation: maximal runs of non-whitespace characters,
accumulator-style. `acc` holds the (reversed) current word. -/
def tokensAux : List Char → List Char → List (List Char)
  | [], acc => if acc.isEmpty then [] else [acc.reverse]
  | c :: rest, acc =>
    if isPyWs c then
      if acc.isEmpty then tokensAux rest []
      else acc.reverse :: tokensAux rest []
    else tokensAux rest (c :: acc)

/-- The whitespace-separated words of a string. -/
def wordsOfStr (s : String) : List String :=
  (tokensAux s.data []).map String.mk

def questionFull : Char := Char.ofNat 0xFF1F
def quoteDouble : Char := Char.ofNat 34
def quoteSingle : Char := Char.ofNat 39

/-- `RAGStore.search` query normalisation (main.py line 80):
`(query or "").replace("？", " ").replace("?", " ").replace(QUOTE, " ").replace(APOS, " ")`.
Each replaced pattern is a single character, so the chain of `replace`
calls is a character map. -/
def normalizeQuery (q : String) : String :=
  ⟨q.data.map (fun c =>
    if c = questionFull || c = '?' || c = quoteDouble || c = quoteSingle then ' ' else c)⟩

/-- Tokens of a string as the FTS5 index sees it: query-significant
punctuation removed, then split on whitespace. -/
def tokensOf (s : String) : List String := wordsOfStr (normalizeQuery s)

/-- A row of the `docs` FTS5 table: content plus serialised metadata
(main.py lines 60, 69-70). Metadata is kept as its serialised string. -/
structure Doc where
  content : String
  metadata : String
deriving DecidableEq

namespace RAGStore

/-- `RAGStore.add` (main.py lines 65-73): one INSERT appending a row. -/
def add (docs : List Doc) (content : String) (metadata : String) : List Doc :=
  docs ++ [⟨content, metadata⟩]

/-- `RAGStore.search` (main.py lines 75-90). The SQLite FTS5 engine is
external, so it is a parameter: `engine q k` is the `SELECT ... MATCH`
call over the normalised query, `.error` standing for `sqlite3.Error`.
Empty-after-normalisation queries short-circuit to `[]`; an engine error
is caught and degrades to `[]`. -/
def search (engine : String → Nat → Except Unit (List Doc))
    (query : String) (k : Nat) : List Doc :=
  let q := normalizeQuery query
  if pyStrip q = "" then []
  else
    match engine q k with
    | .error _ => []
    | .ok rows => rows

end RAGStore

/-- Modelled from the spec: the full-text engine behind `docs MATCH q`
is SQLite FTS5, not repository code. Per spec §4.2, a Document matches
when it contains the query tokens (whitespace-separated terms are an
implicit conjunction), ordering is insertion order when no relevance
rank is configured (none is), and the result count is capped at `k`
(the `LIMIT {k}` in main.py line 84). -/
def fts5Match (docs : List Doc) (q : String) (k : Nat) : Except Unit (List Doc) :=
  let qts := wordsOfStr q
  .ok ((docs.filter (fun d => qts.all (fun t => t ∈ tokensOf d.content))).take k)

/-- The deployed search: `RAGStore.search` over the FTS5 engine for the
current table contents. -/
def ragSearch (docs : List Doc) (q : String) (k : Nat) : List Doc :=
  RAGStore.search (fts5Match docs) q k

/-- The one failure the modelled endpoints surface to the HTTP layer:
an `HTTPException(400)` for a missing required field. -/
inductive ChatError
  | validation
deriving DecidableEq

/-- `rag_ingest` (main.py lines 205-210): 400 when content is falsy or
whitespace-only, else store `content.strip()` with the metadata. -/
def rag_ingest (docs : List Doc) (content : String) (metadata : String) :
    Except ChatError (List Doc) :=
  if content = "" ∨ pyStrip content = "" then .error .validation
  else .ok (RAGStore.add docs (pyStrip content) metadata)

/-- Roles of the langchain messages this program ever stores or builds:
`SystemMessage`, `HumanMessage`, `AIMessage`. -/
inductive Role
  | system
  | human
  | ai
deriving DecidableEq

/-- The langchain `message.type` string of each message class. -/
def Role.typeStr : Role → String
  | .system => "system"
  | .human => "human"
  | .ai => "ai"

structure Message where
  role : Role
  content : String
deriving DecidableEq

/-- Modelled from the spec: the history store itself is
`SQLChatMessageHistory` (library code, constructed in
`get_message_history`, main.py lines 45-46), not repository code. Per
spec §4.1 it is an append-only per-session message log keyed by
session_id with insertion order preserved; modelled as the table of
(session_id, message) rows in insertion order. -/
abbrev HistStore := List (String × Message)

/-- Spec §4.1 `load`: all messages of the session, oldest first; empty
(not an error) for an unknown session_id. -/
def loadHistory (h : HistStore) (sid : String) : List Message :=
  (h.filter (fun e => e.1 == sid)).map (·.2)

/-- Spec §4.1 `append`: add one message at the end of the session log. -/
def appendMessage (h : HistStore) (sid : String) (m : Message) : HistStore :=
  h ++ [(sid, m)]

/-- A sequence of `append` calls for one session, in order. -/
def appendAll (h : HistStore) (sid : String) (ms : List Message) : HistStore :=
  ms.foldl (fun acc m => appendMessage acc sid m) h

def echoPre : String := "收到："

def echoPost : String := "。当前未配置外部模型，返回示例回复。"

namespace SimpleResponder

/-- `SimpleResponder.invoke` (main.py lines 94-107) on the list branch,
the only one this program exercises: the pipeline always calls it with
`prompt_value.to_messages()`, a list of langchain messages, each of
which has a `content` attribute. The loop over `inputs[::-1]` breaking
at the first message with a `content` attribute therefore picks the
last message of the list (empty string when the list is empty). -/
def invoke (msgs : List Message) : String :=
  let msg := match msgs.getLast? with
    | some m => m.content
    | none => ""
  echoPre ++ msg ++ echoPost

end SimpleResponder

/-- The content of the most recent user-role message of a conversation
(empty when there is none). -/
def lastUserContent (msgs : List Message) : String :=
  match msgs.reverse.find? (fun m => m.role == Role.human) with
  | some m => m.content
  | none => ""

/-- Follows the spec's words (§4.4): the fallback "extracts the most
recent user-role message's content and returns a fixed-format string
that echoes it verbatim". Stated with the code's fixed format, to be
compared with `SimpleResponder.invoke`. -/
def specEchoLastUser (msgs : List Message) : String :=
  echoPre ++ lastUserContent msgs ++ echoPost

/-- The system message of the prompt template (main.py line 113) with
its context slot filled. -/
def systemTemplate (context : String) : String :=
  "你是一个有用的中文助手，会结合对话记忆回答问题。\n以下是检索到的知识片段，若相关请参考回答：\n" ++ context

/-- The context slot value (main.py lines 158 and 187):
`"\n\n".join(contents) if docs else PLACEHOLDER`. -/
def buildContext (docs : List Doc) : String :=
  if docs.isEmpty then "（未检索到相关片段）"
  else String.intercalate "\n\n" (docs.map (·.content))

/-- The conversation structure the prompt template produces: system
message with context, then the session history, then the new human
message (main.py lines 111-117). -/
def buildConversation (history : List Message) (context userMsg : String) :
    List Message :=
  ⟨.system, systemTemplate context⟩ :: (history ++ [⟨.human, userMsg⟩])

/-- The two durable stores behind the endpoints. -/
structure AppState where
  hist : HistStore
  rag : List Doc
deriving DecidableEq

/-- The history write `RunnableWithMessageHistory` performs after a
successful run: append the human input, then the AI reply, to the
session log. On failure it appends nothing (its history listener only
fires when the chain completes). -/
def appendExchange (st : AppState) (sid userMsg reply : String) : AppState :=
  { st with hist := st.hist ++ [(sid, ⟨.human, userMsg⟩), (sid, ⟨.ai, reply⟩)] }

/-- The conversation a request (session_id, message) is answered from:
history loaded for the session, context from `rags.search(message, 5)`. -/
def convOf (st : AppState) (sid msg : String) : List Message :=
  buildConversation (loadHistory st.hist sid)
    (buildContext (ragSearch st.rag msg 5)) msg

/-- `chat` (main.py lines 152-179). The configured backend is external
(`build_chain` picks ChatTongyi / ChatOpenAI / SimpleResponder from the
environment), so it is the parameter `primary`, `.error` standing for
any raised exception. Validation first (400, no store touched); then
the chain is invoked on the assembled conversation; on any exception
the bare `except` rebuilds the same prompt over `SimpleResponder` and
invokes it on the same (unchanged) conversation. Returns the response
paired with the post-request store state. -/
def chat (primary : List Message → Except String String)
    (st : AppState) (sid msg : String) :
    Except ChatError String × AppState :=
  if sid = "" ∨ msg = "" then (.error .validation, st)
  else
    let conv := convOf st sid msg
    match primary conv with
    | .ok reply => (.ok reply, appendExchange st sid msg reply)
    | .error _ =>
      let reply := SimpleResponder.invoke conv
      (.ok reply, appendExchange st sid msg reply)

/-- One server-sent event yielded by `event_generator`: a data
fragment, the terminal `event: done` marker, or the terminal
`event: error` carrying the exception message. -/
inductive SSEEvent
  | data (s : String)
  | done
  | error (msg : String)
deriving DecidableEq

/-- `event_generator` (main.py lines 189-197). The backend stream is
the prefix `chunks` it yields (None chunks are skipped by the
`continue`) followed by either normal exhaustion (`err = none`, the
done marker is yielded) or a raised exception (`err = some e`, caught
and turned into one error event). -/
def eventGenerator : List (Option String) → Option String → List SSEEvent
  | [], none => [.done]
  | [], some e => [.error e]
  | none :: rest, err => eventGenerator rest err
  | some c :: rest, err => .data c :: eventGenerator rest err

/-- The single terminal event of a stream outcome. -/
def terminalEvent : Option String → SSEEvent
  | none => .done
  | some e => .error e

def SSEEvent.isTerminal : SSEEvent → Bool
  | .data _ => false
  | .done => true
  | .error _ => true

/-- `chat_stream` (main.py lines 181-199). `primaryStream` is the
external chain's `stream` run on the conversation: the chunks it
produces before either finishing (`none`) or raising (`some message`).
Validation first (400); the streamed events follow `event_generator`;
`RunnableWithMessageHistory` records the exchange (input plus the
concatenated chunks) only when the stream completes. There is no
fallback substitution on this path. -/
def chat_stream (primaryStream : List Message → List (Option String) × Option String)
    (st : AppState) (sid msg : String) :
    Except ChatError (List SSEEvent) × AppState :=
  if sid = "" ∨ msg = "" then (.error .validation, st)
  else
    let conv := convOf st sid msg
    let r := primaryStream conv
    let events := eventGenerator r.1 r.2
    match r.2 with
    | none => (.ok events, appendExchange st sid msg (String.join (r.1.filterMap id)))
    | some _ => (.ok events, st)

/-- One record of the `get_history` endpoint's response. -/
structure HistoryEntry where
  role : String
  content : String
deriving DecidableEq

/-- `get_history` (main.py lines 217-230): 400 on empty session_id,
else each stored message projected to `{role: m.type, content}` (every
langchain message has a `type`, so the `hasattr` fallback to
"assistant" is dead on stored messages). -/
def get_history (st : AppState) (sid : String) :
    Except ChatError (List HistoryEntry) :=
  if sid = "" then .error .validation
  else .ok ((loadHistory st.hist sid).map (fun m => ⟨m.role.typeStr, m.content⟩))

/-! ## Store lemmas -/

theorem loadHistory_appendMessage (h : HistStore) (sid : String) (m : Message) :
    loadHistory (appendMessage h sid m) sid = loadHistory h sid ++ [m] := by
  simp [loadHistory, appendMessage, List.filter_append]

theorem loadHistory_appendAll (h : HistStore) (sid : String) (ms : List Message) :
    loadHistory (appendAll h sid ms) sid = loadHistory h sid ++ ms := by
  induction ms generalizing h with
  | nil => simp [appendAll]
  | cons m ms ih =>
    show loadHistory (appendAll (appendMessage h sid m) sid ms) sid = _
    rw [ih, loadHistory_appendMessage]
    simp

/-- C1: appending m1…mn to a session via the history store and then
loading that session returns exactly [m1,…,mn] in insertion order
(oldest first), starting from any state in which the session has no
messages; and loading a session that was never written returns the
empty sequence, not an error. -/
theorem c1_history_append_load (h : HistStore) (sid : String) (ms : List Message)
    (hempty : loadHistory h sid = []) :
    loadHistory (appendAll h sid ms) sid = ms ∧
    loadHistory ([] : HistStore) sid = [] := by
  refine ⟨?_, rfl⟩
  rw [loadHistory_appendAll, hempty]
  rfl

theorem c1_history_append_load_witness :
    loadHistory (appendAll ([] : HistStore) "s1"
        [⟨.human, "a"⟩, ⟨.ai, "b"⟩]) "s1" = [⟨.human, "a"⟩, ⟨.ai, "b"⟩] :=
  (c1_history_append_load [] "s1" [⟨.human, "a"⟩, ⟨.ai, "b"⟩] rfl).1

/-- C2: in the synchronous path, if the configured backend raises on
the assembled conversation, `chat` returns the fallback responder's
reply on that same conversation (same history, same retrieved context,
same user message) as a success — the error is not surfaced — and the
exchange recorded is the fallback's. -/
theorem c2_sync_fallback (primary : List Message → Except String String)
    (st : AppState) (sid msg e : String)
    (hs : sid ≠ "") (hm : msg ≠ "")
    (hfail : primary (convOf st sid msg) = .error e) :
    chat primary st sid msg =
      (.ok (SimpleResponder.invoke (convOf st sid msg)),
       appendExchange st sid msg (SimpleResponder.invoke (convOf st sid msg))) := by
  simp [chat, hs, hm, hfail]

theorem c2_sync_fallback_witness :
    chat (fun _ => Except.error "boom") ⟨[], []⟩ "s1" "hi" =
      (.ok (SimpleResponder.invoke (convOf ⟨[], []⟩ "s1" "hi")),
       appendExchange ⟨[], []⟩ "s1" "hi"
         (SimpleResponder.invoke (convOf ⟨[], []⟩ "s1" "hi"))) :=
  c2_sync_fallback (fun _ => Except.error "boom") ⟨[], []⟩ "s1" "hi" "boom"
    (by decide) (by decide) rfl

/-- C3: both the synchronous and the streaming entry fail with a
validation error when session_id or the user message is empty, and the
stores are left exactly as they were — no write occurs. -/
theorem c3_validation (primary : List Message → Except String String)
    (primaryStream : List Message → List (Option String) × Option String)
    (st : AppState) (sid msg : String) (h : sid = "" ∨ msg = "") :
    chat primary st sid msg = (.error .validation, st) ∧
    chat_stream primaryStream st sid msg = (.error .validation, st) := by
  constructor
  · unfold chat
    rw [if_pos h]
  · unfold chat_stream
    rw [if_pos h]

theorem c3_validation_witness :
    chat (fun _ => Except.ok "r") ⟨[], []⟩ "" "hi" =
      (.error .validation, (⟨[], []⟩ : AppState)) ∧
    chat_stream (fun _ => ([], none)) ⟨[], []⟩ "" "hi" =
      (.error .validation, (⟨[], []⟩ : AppState)) :=
  c3_validation (fun _ => Except.ok "r") (fun _ => ([], none)) ⟨[], []⟩ "" "hi"
    (Or.inl rfl)

/-! ## Tokenisation lemmas -/

theorem tokensAux_eq_nil_iff (l : List Char) (acc : List Char) :
    tokensAux l acc = [] ↔ acc = [] ∧ ∀ c ∈ l, isPyWs c = true := by
  induction l generalizing acc with
  | nil =>
    by_cases ha : acc = [] <;> simp [tokensAux, ha]
  | cons c rest ih =>
    by_cases hw : isPyWs c <;> by_cases ha : acc = [] <;>
      simp [tokensAux, hw, ha, ih]

theorem stripChars_eq_nil_iff (l : List Char) :
    stripChars l = [] ↔ ∀ c ∈ l, isPyWs c = true := by
  unfold stripChars
  rw [List.reverse_eq_nil_iff, List.dropWhile_eq_nil_iff]
  constructor
  · intro h c hc
    rw [← List.takeWhile_append_dropWhile (p := isPyWs) (l := l)] at hc
    rcases List.mem_append.1 hc with h1 | h2
    · exact List.mem_takeWhile_imp h1
    · exact h c (List.mem_reverse.2 h2)
  · intro h c hc
    exact h c ((List.dropWhile_sublist isPyWs).subset (List.mem_reverse.1 hc))

theorem pyStrip_ne_empty_of_words (s : String) (h : wordsOfStr s ≠ []) :
    pyStrip s ≠ "" := by
  intro hps
  apply h
  have hni : stripChars s.data = [] := congrArg String.data hps
  unfold wordsOfStr
  rw [(tokensAux_eq_nil_iff s.data []).2 ⟨rfl, (stripChars_eq_nil_iff s.data).1 hni⟩]
  rfl

/-- The deployed search on a non-degenerate query: the stored rows
whose tokens contain every query token, in insertion order, capped at
`k`. -/
theorem ragSearch_eq (docs : List Doc) (q : String) (k : Nat)
    (hq : pyStrip (normalizeQuery q) ≠ "") :
    ragSearch docs q k =
      (docs.filter (fun d =>
        (wordsOfStr (normalizeQuery q)).all (fun t => t ∈ tokensOf d.content))).take k := by
  simp [ragSearch, RAGStore.search, fts5Match, hq]

/-- C4 as stated is false on two counts. First, the public ingest
stores `content.strip()`, so for padded content the stored string —
and hence every search result — differs from the submitted `c`: after
`rag_ingest [] " hi "`, searching its token returns content "hi", not
" hi ". Second, the engine caps results at `k` in insertion order, so
with k = 1 and an earlier matching document the new document is cut
off: after ingesting "hello" into a store holding "hello world",
`search "hello" 1` returns only "hello world". -/
theorem c4_counterexample :
    (rag_ingest [] " hi " "m" = .ok [⟨"hi", "m"⟩] ∧
      " hi " ∉ (ragSearch [⟨"hi", "m"⟩] "hi" 5).map Doc.content) ∧
    (rag_ingest [⟨"hello world", "m"⟩] "hello" "m" =
        .ok [⟨"hello world", "m"⟩, ⟨"hello", "m"⟩] ∧
      "hello" ∉
        (ragSearch [⟨"hello world", "m"⟩, ⟨"hello", "m"⟩] "hello" 1).map Doc.content) := by
  decide

/-- C4 (amended): for content `c` with no surrounding whitespace and at
least one token, ingesting `c` and then searching with a query whose
tokens are the tokens of `c` includes a result whose content equals
`c`, provided fewer than `k` previously ingested documents match the
query (the engine returns matches in insertion order capped at `k`). -/
theorem c4_ingest_then_search (docs : List Doc) (c meta qy : String) (k : Nat)
    (htrim : pyStrip c = c)
    (htok : tokensOf c ≠ [])
    (hq : tokensOf qy = tokensOf c)
    (hk : (docs.filter (fun d =>
      (tokensOf c).all (fun t => t ∈ tokensOf d.content))).length < k) :
    rag_ingest docs c meta = .ok (docs ++ [⟨c, meta⟩]) ∧
    c ∈ (ragSearch (docs ++ [⟨c, meta⟩]) qy k).map Doc.content := by
  have hc0 : c ≠ "" := by
    intro hc
    apply htok
    rw [hc]
    rfl
  have hstrip : pyStrip c ≠ "" := by
    rw [htrim]
    exact hc0
  constructor
  · unfold rag_ingest
    rw [if_neg (by push_neg; exact ⟨hc0, hstrip⟩)]
    unfold RAGStore.add
    rw [htrim]
  · have hqtok : tokensOf qy ≠ [] := by
      rw [hq]
      exact htok
    have hnq : pyStrip (normalizeQuery qy) ≠ "" :=
      pyStrip_ne_empty_of_words (normalizeQuery qy) hqtok
    rw [ragSearch_eq _ _ _ hnq]
    have hP : wordsOfStr (normalizeQuery qy) = tokensOf c := hq
    simp only [hP]
    rw [List.filter_append]
    have hPc : List.filter (fun d =>
        (tokensOf c).all (fun t => t ∈ tokensOf d.content))
        ([⟨c, meta⟩] : List Doc) = [⟨c, meta⟩] := by
      simp [List.all_eq_true]
    rw [hPc]
    have hlen : ((docs.filter (fun d =>
        (tokensOf c).all (fun t => t ∈ tokensOf d.content))) ++
        ([⟨c, meta⟩] : List Doc)).length ≤ k := by
      rw [List.length_append, List.length_singleton]
      omega
    rw [List.take_of_length_le hlen]
    have hmem : (⟨c, meta⟩ : Doc) ∈ (docs.filter (fun d =>
        (tokensOf c).all (fun t => t ∈ tokensOf d.content))) ++
        ([⟨c, meta⟩] : List Doc) :=
      List.mem_append_right _ (List.mem_singleton_self _)
    exact List.mem_map_of_mem Doc.content hmem

theorem c4_ingest_then_search_witness :
    rag_ingest [] "hi" "m" = .ok ([] ++ [⟨"hi", "m"⟩]) ∧
    "hi" ∈ (ragSearch ([] ++ [⟨"hi", "m"⟩]) "hi" 5).map Doc.content :=
  c4_ingest_then_search [] "hi" "m" "hi" 5 (by decide) (by decide) rfl (by decide)

/-- C5: `search` never surfaces an error: a query that is empty after
stripping query-syntax characters and whitespace returns the empty
list without consulting the engine, and an engine rejection (the
`sqlite3.Error` branch) degrades to the empty list instead of
raising. -/
theorem c5_search_degrades (engine : String → Nat → Except Unit (List Doc))
    (q : String) (k : Nat) :
    (pyStrip (normalizeQuery q) = "" → RAGStore.search engine q k = []) ∧
    (engine (normalizeQuery q) k = .error () → RAGStore.search engine q k = []) := by
  constructor
  · intro h
    simp [RAGStore.search, h]
  · intro h
    by_cases hq : pyStrip (normalizeQuery q) = "" <;> simp [RAGStore.search, hq, h]

theorem c5_search_degrades_witness :
    RAGStore.search (fun _ _ => .error ()) "hello" 5 = [] ∧
    RAGStore.search (fun _ _ => .ok [⟨"x", "m"⟩]) "？?" 5 = [] :=
  ⟨(c5_search_degrades (fun _ _ => .error ()) "hello" 5).2 rfl,
   (c5_search_degrades (fun _ _ => .ok [⟨"x", "m"⟩]) "？?" 5).1 (by decide)⟩

/-- C6 as stated is false: the fallback echoes the content of the last
message of the conversation regardless of role, not the most recent
user-role message. On [user "a", assistant "b"] it echoes "b" while
the spec's extraction yields "a". -/
theorem c6_counterexample :
    SimpleResponder.invoke [⟨.human, "a"⟩, ⟨.ai, "b"⟩] ≠
      specEchoLastUser [⟨.human, "a"⟩, ⟨.ai, "b"⟩] := by
  decide

/-- C6 (amended): the fallback is deterministic — its output is a fixed
format around a function of the conversation alone — and it echoes the
content of the conversation's most recent message verbatim; when that
last message is user-role (as on every pipeline invocation, where the
conversation ends with the new user message) this coincides with the
spec's "most recent user-role message's content". -/
theorem c6_fallback_deterministic_echo (msgs : List Message) (m : Message)
    (h : msgs.getLast? = some m) :
    SimpleResponder.invoke msgs = echoPre ++ m.content ++ echoPost ∧
    (m.role = .human → SimpleResponder.invoke msgs = specEchoLastUser msgs) := by
  have h1 : SimpleResponder.invoke msgs = echoPre ++ m.content ++ echoPost := by
    unfold SimpleResponder.invoke
    rw [h]
  refine ⟨h1, fun hrole => ?_⟩
  rw [h1]
  have hh : msgs.reverse.head? = some m := by
    rw [List.head?_reverse, h]
  unfold specEchoLastUser lastUserContent
  cases hrev : msgs.reverse with
  | nil =>
    rw [hrev] at hh
    cases hh
  | cons a t =>
    rw [hrev] at hh
    have ham : a = m := by simpa using hh
    rw [ham, List.find?_cons_of_pos _ (by simp [hrole])]

theorem c6_fallback_deterministic_echo_witness :
    SimpleResponder.invoke [⟨.human, "hello"⟩] =
      specEchoLastUser [⟨.human, "hello"⟩] :=
  (c6_fallback_deterministic_echo [⟨.human, "hello"⟩] ⟨.human, "hello"⟩ rfl).2 rfl

/-! ## Streaming framing -/

theorem eventGenerator_shape (chunks : List (Option String)) (err : Option String) :
    ∃ ds : List String,
      eventGenerator chunks err = ds.map SSEEvent.data ++ [terminalEvent err] := by
  induction chunks with
  | nil => cases err <;> exact ⟨[], rfl⟩
  | cons c rest ih =>
    cases c with
    | none => simpa [eventGenerator] using ih
    | some s =>
      obtain ⟨ds, hds⟩ := ih
      exact ⟨s :: ds, by simp [eventGenerator, hds]⟩

/-- C7: every stream the generator emits is zero or more data fragment
events followed by exactly one terminal event — the done marker on
normal completion, a single error event carrying the message on
failure — and the terminal event is not a data fragment, so no data
fragment follows it. -/
theorem c7_stream_framing (chunks : List (Option String)) (err : Option String) :
    ∃ ds : List String,
      eventGenerator chunks err = ds.map SSEEvent.data ++ [terminalEvent err] ∧
      (err = none → terminalEvent err = .done) ∧
      (∀ e, err = some e → terminalEvent err = .error e) ∧
      (∀ s, terminalEvent err ≠ SSEEvent.data s) ∧
      (eventGenerator chunks err).countP SSEEvent.isTerminal = 1 := by
  obtain ⟨ds, hds⟩ := eventGenerator_shape chunks err
  refine ⟨ds, hds, fun he => by rw [he]; rfl, fun e he => by rw [he]; rfl, ?_, ?_⟩
  · intro s
    cases err <;> simp [terminalEvent]
  · rw [hds, List.countP_append, List.countP_map]
    have h0 : List.countP (SSEEvent.isTerminal ∘ SSEEvent.data) ds = 0 := by
      simp [List.countP_eq_zero, SSEEvent.isTerminal, Function.comp]
    rw [h0]
    cases err <;> simp [terminalEvent, List.countP_cons, SSEEvent.isTerminal]

/-- C8 as stated is false: the endpoint reports each stored message's
langchain `type`, which is "human" for user messages and "ai" for
assistant replies. After one synchronous exchange on session "s1" the
returned roles are ["human", "ai"], and "human" is not among
{system, user, assistant}. -/
theorem c8_counterexample :
    get_history (chat (fun _ => Except.error "x") ⟨[], []⟩ "s1" "hello").2 "s1" =
      .ok [⟨"human", "hello"⟩,
           ⟨"ai", "收到：hello。当前未配置外部模型，返回示例回复。"⟩] ∧
    "human" ∉ (["system", "user", "assistant"] : List String) := by
  decide

/-- C8 (amended): every element of a successful `get_history` response
is a {role, content} record whose role is one of the langchain type
strings "system", "human" or "ai". -/
theorem c8_roles_langchain (st : AppState) (sid : String)
    (entries : List HistoryEntry) (h : get_history st sid = .ok entries) :
    ∀ e ∈ entries, e.role ∈ (["system", "human", "ai"] : List String) := by
  unfold get_history at h
  by_cases hs : sid = ""
  · rw [if_pos hs] at h
    cases h
  · rw [if_neg hs] at h
    cases h
    intro e he
    rw [List.mem_map] at he
    obtain ⟨m, _, rfl⟩ := he
    rcases m with ⟨r, mc⟩
    cases r <;> simp [Role.typeStr]

theorem c8_roles_langchain_witness :
    (⟨"human", "x"⟩ : HistoryEntry).role ∈ (["system", "human", "ai"] : List String) :=
  c8_roles_langchain ⟨[("s1", ⟨.human, "x"⟩)], []⟩ "s1" [⟨"human", "x"⟩] (by decide)
    ⟨"human", "x"⟩ (by decide)

/-- C9 as stated is false on the placeholder's identity: the fixed
string the code substitutes for an empty result set is
"（未检索到相关片段）", not "no relevant context found". -/
theorem c9_counterexample :
    buildContext [] ≠ "no relevant context found" := by
  decide

/-- C9 (amended): with no retrieval results the context slot receives
the fixed non-empty placeholder "（未检索到相关片段）" rather than the
empty string; with results it receives the concatenation of all result
contents separated by a blank line. -/
theorem c9_context_slot (docs : List Doc) :
    buildContext [] = "（未检索到相关片段）" ∧
    buildContext [] ≠ "" ∧
    (docs ≠ [] → buildContext docs = String.intercalate "\n\n" (docs.map (·.content))) := by
  refine ⟨rfl, by decide, fun h => ?_⟩
  unfold buildContext
  rw [if_neg (by simpa using h)]

theorem c9_context_slot_witness :
    buildContext [⟨"a", "m"⟩] =
      String.intercalate "\n\n" (([⟨"a", "m"⟩] : List Doc).map (·.content)) :=
  (c9_context_slot [⟨"a", "m"⟩]).2.2 (by decide)

/-! ## Ingest trimming -/

theorem ragSearch_subset (docs : List Doc) (q : String) (k : Nat) :
    ∀ r ∈ ragSearch docs q k, r ∈ docs := by
  intro r hr
  by_cases hq : pyStrip (normalizeQuery q) = ""
  · simp [ragSearch, RAGStore.search, hq] at hr
  · rw [ragSearch_eq docs q k hq] at hr
    exact List.mem_of_mem_filter ((List.take_subset _ _) hr)

/-- C10: a successful public ingest records exactly one new Document
whose content is `content.strip()` — surrounding whitespace removed —
and every search result over the resulting store is one of its stored
(hence stripped-at-ingest) documents, so the unstripped form is never
returned. -/
theorem c10_ingest_strips (docs : List Doc) (content meta : String)
    (h : pyStrip content ≠ "") :
    rag_ingest docs content meta = .ok (docs ++ [⟨pyStrip content, meta⟩]) ∧
    ∀ q k r, r ∈ ragSearch (docs ++ [⟨pyStrip content, meta⟩]) q k →
      r ∈ docs ++ [⟨pyStrip content, meta⟩] := by
  have hc : content ≠ "" := by
    intro hc
    apply h
    rw [hc]
    rfl
  refine ⟨?_, fun q k r hr => ragSearch_subset _ q k r hr⟩
  unfold rag_ingest
  rw [if_neg (by push_neg; exact ⟨hc, h⟩)]
  rfl

theorem c10_ingest_strips_witness :
    rag_ingest [] " hi " "m" = .ok ([] ++ [⟨pyStrip " hi ", "m"⟩]) ∧
    pyStrip " hi " = "hi" :=
  ⟨(c10_ingest_strips [] " hi " "m" (by decide)).1, by decide⟩

end ChatAI
